import Mathlib

/-!
Verification of the client-side session logic of the pydantic-ai-project
frontend: the chat page's conversational state manager (message log,
single-flight request lifecycle, automatic summary turn) and the URL input
page's submit/normalize/recent-URL-cache logic.

The JavaScript source is shallowly embedded: React state updates become
explicit state passing, `fetch` outcomes become an explicit outcome
parameter, and each event handler becomes a pure function from the
pre-handler state (plus the backend outcome) to the post-handler state
together with the request it dispatched (if any).
-/

namespace UrlAnalyzer

/-- JavaScript `String.prototype.trim()`: strip leading and trailing
whitespace.  Embedded structurally over the character list so that the
kernel can evaluate it on literals. -/
def jsTrim (s : String) : String :=
  ⟨((s.data.dropWhile Char.isWhitespace).reverse.dropWhile Char.isWhitespace).reverse⟩

/-- ASCII lower-casing of one character (what the `i` regex flag needs for
the `https?://` scheme test). -/
def asciiLower (c : Char) : Char :=
  if 'A' ≤ c ∧ c ≤ 'Z' then Char.ofNat (c.toNat + 32) else c

/-- A chat message as built by the code: a `role` string, a `content`
string.  The chat page (`ChatPage` in the richer variant) uses the role
strings `"user"`, `"model"` (the AI/assistant reply role) and `"system"`.
The `timestamp` field of the source is display-only real time and is
omitted from the embedding. -/
structure Message where
  role : String
  content : String
deriving DecidableEq, Repr

/-- The chat page's state relevant to the claims: the `messages` list and
the `isLoading` (pending) flag. -/
structure ChatState where
  messages : List Message
  isLoading : Bool
deriving DecidableEq, Repr

/-- Outcome of a `fetch('/api/chat')` call as observed by the handler:
`ok m` models a 2xx response whose JSON body parsed to `{message: m}`;
`fail` models any failure (non-2xx `response.ok == false`, transport
error, or a body that fails to parse), all of which land in the `catch`
branch of the source. -/
inductive FetchOutcome where
  | ok (message : String)
  | fail
deriving DecidableEq, Repr

/-- Resolve the pending reply of a turn: `ok m` appends a `"model"` message
with content `m`, `fail` appends the handler-specific system error message
`errMsg`; either way `isLoading` ends `false` (the source's `finally`). -/
def replyMessage (errMsg : Message) : FetchOutcome → Message
  | .ok m => ⟨"model", m⟩
  | .fail => errMsg

/-- Shared response handling (the `then`/`catch`/`finally` tail of both
chat handlers): append the reply and clear the loading flag. -/
def resolveReply (st : ChatState) (errMsg : Message) (resp : FetchOutcome) : ChatState :=
  ⟨st.messages ++ [replyMessage errMsg resp], false⟩

/-- The fixed system error message appended by `handleSendMessage`'s
`catch` branch. -/
def sendErrorMsg : Message :=
  ⟨"system", "Error: Failed to get a response. Please try again."⟩

/-- `handleSendMessage(e)` of the chat page, as a function of the pre-call
state, the submitted input, and the backend outcome.  Mirrors the source:
reject (state unchanged, nothing dispatched) when the trimmed input is
empty or a request is already in flight; otherwise append the `"user"`
message (content is the raw input), dispatch a request whose `messages`
body is the previous log plus the new user message, and resolve the reply.
Returns the post-turn state and `some` dispatched request body (`none`
when the call was rejected and no request was made). -/
def handleSendMessage (st : ChatState) (input : String) (resp : FetchOutcome) :
    ChatState × Option (List Message) :=
  if jsTrim input = "" ∨ st.isLoading = true then
    (st, none)
  else
    let userMessage : Message := ⟨"user", input⟩
    let requestMessages := st.messages ++ [userMessage]
    (resolveReply ⟨requestMessages, true⟩ sendErrorMsg resp, some requestMessages)

/-- The fixed synthetic prompt message dispatched (but never logged) by the
automatic analysis turn. -/
def autoAnalyzePrompt : Message :=
  ⟨"user", "Give me a summary of this website"⟩

/-- The request body of `handleAutoAnalyze`'s fetch: only the synthetic
summary prompt, not the visible log. -/
def autoAnalyzeRequest : List Message := [autoAnalyzePrompt]

/-- The fixed system error message appended by `handleAutoAnalyze`'s
`catch` branch. -/
def autoErrorMsg : Message :=
  ⟨"system", "Error: Failed to analyze website. Please try a different URL or try again later."⟩

/-- `handleAutoAnalyze(urlData)` of the chat page: rejected while a request
is in flight; otherwise dispatches the fixed one-message request and
appends only the resulting reply (never the prompt itself) to the log. -/
def handleAutoAnalyze (st : ChatState) (resp : FetchOutcome) :
    ChatState × Option (List Message) :=
  if st.isLoading = true then
    (st, none)
  else
    (resolveReply ⟨st.messages, true⟩ autoErrorMsg resp, some autoAnalyzeRequest)

/-- The `analysis` object inside the navigation payload; the chat page's
init logic consults only its `title`. -/
structure Analysis where
  title : Option String
deriving DecidableEq, Repr

/-- The navigation payload `urlData` carried from the URL input page, as
consulted by the chat page's init effect: `analysis?.title` and `url`. -/
structure UrlData where
  analysis : Option Analysis
  url : Option String
deriving DecidableEq, Repr

/-- JavaScript `a || b` on a possibly-absent string `a`: `b` when `a` is
absent (`undefined`) or empty (falsy), else `a`. -/
def jsOrString (a : Option String) (b : String) : String :=
  match a with
  | some s => if s = "" then b else s
  | none => b

/-- The subject of the init announcement:
`urlData.analysis?.title || urlData.url || 'Unknown URL'`. -/
def initSubject (d : UrlData) : String :=
  jsOrString (d.analysis.bind Analysis.title) (jsOrString d.url "Unknown URL")

/-- The single system message the init effect installs as the whole log. -/
def initAnnouncement (d : UrlData) : Message :=
  ⟨"system", "Analyzing website: " ++ initSubject d⟩

/-- Initialization with a present `urlData`: the log is set to exactly the
announcement, then `handleAutoAnalyze` runs from that fresh (non-loading)
state.  Returns the state after the automatic turn and the request it
dispatched. -/
def initializeChat (d : UrlData) (resp : FetchOutcome) :
    ChatState × Option (List Message) :=
  handleAutoAnalyze ⟨[initAnnouncement d], false⟩ resp

/-- What the chat page's init effect does, as an explicit action:
`redirect` models `navigate('/')` (back to the URL input page). -/
inductive InitEffect where
  | redirect
  | started (st : ChatState) (request : Option (List Message))
deriving DecidableEq, Repr

/-- The init effect of the chat page: with no `urlData` it redirects at
once (no message installed, no request dispatched); with `urlData` present
it installs the announcement and runs the automatic analysis turn. -/
def chatInitEffect (u : Option UrlData) (resp : FetchOutcome) : InitEffect :=
  match u with
  | none => .redirect
  | some d =>
    let (st, req) := initializeChat d resp
    .started st req

/-- One user-visible operation of the conversation controller after
initialization. -/
inductive ChatOp where
  | send (input : String) (resp : FetchOutcome)
  | autoAnalyze (resp : FetchOutcome)
deriving Repr

/-- Step the chat state by one operation, returning the new state and the
dispatched request (if any). -/
def chatStep (st : ChatState) : ChatOp → ChatState × Option (List Message)
  | .send input resp => handleSendMessage st input resp
  | .autoAnalyze resp => handleAutoAnalyze st resp

/-- Run a sequence of `handleSendMessage` attempts, collecting every
request body that was actually dispatched. -/
def runSendSequence (st : ChatState) :
    List (String × FetchOutcome) → ChatState × List (List Message)
  | [] => (st, [])
  | (input, resp) :: rest =>
    let (st1, req) := handleSendMessage st input resp
    let (st2, reqs) := runSendSequence st1 rest
    (st2, match req with | some q => q :: reqs | none => reqs)

/-! ## URL input page (Session Initializer) -/

/-- `saveToRecent(urlToSave)` of the URL input page: front-insert, drop any
existing occurrence of the same string, keep at most 5 (`slice(0, 5)`). -/
def saveToRecent (recentUrls : List String) (urlToSave : String) : List String :=
  (urlToSave :: recentUrls.filter (fun item => item ≠ urlToSave)).take 5

/-- The scheme test of the source, `/^https?:\/\//i.test(urlToProcess)`:
the string starts, case-insensitively, with `http://` or `https://`. -/
def hasHttpScheme (s : String) : Bool :=
  let l := s.data.map asciiLower
  "http://".data.isPrefixOf l || "https://".data.isPrefixOf l

/-- The normalization applied before dispatch: prepend `https://` when the
(already trimmed) input lacks an `http(s)://` scheme. -/
def normalizeUrl (s : String) : String :=
  if hasHttpScheme s then s else "https://" ++ s

/-- Outcome of the `fetch('/api/process-url')` call as observed by
`handleSubmit`: `ok d` is a 2xx response parsed into the navigation
payload `d`; `httpError f` is a non-2xx response whose parsed error body
had `error` field `f` (absent or empty falls back to the fixed string);
`transportError m` is a rejected fetch / unparseable body whose thrown
error had message `m`. -/
inductive ProcessUrlOutcome where
  | ok (data : UrlData)
  | httpError (errField : Option String)
  | transportError (message : Option String)
deriving DecidableEq, Repr

/-- The result of one submit, from the caller's perspective. -/
inductive SubmitResult where
  | emptyInput
  | backendError (message : String)
  | success (data : UrlData)
deriving DecidableEq, Repr

/-- Is this submit result the success case? -/
def SubmitResult.isSuccess : SubmitResult → Bool
  | .success _ => true
  | _ => false

/-- Everything observable about one `handleSubmit` call: the in-memory
recent-URL list afterwards, what (if anything) was written to the
persistent store, the URL dispatched to the backend (`none` when no
network call was made), and the result. -/
structure SubmitOutput where
  recentUrls : List String
  stored : Option (List String)
  dispatched : Option String
  result : SubmitResult
deriving DecidableEq, Repr

/-- `handleSubmit(e)` of the URL input page: trim; blank input sets the
inline error `'Please enter a URL'` and returns before any network call;
otherwise normalize the scheme and dispatch.  On a 2xx response the
normalized URL is saved to the recent list (state and storage) and the
page navigates with the payload; on a non-2xx response the thrown error's
message is `errorData.error || 'Failed to process URL'`; on a transport
failure the shown message is
`err.message || 'An error occurred processing this URL. Please try again.'`.
Failures leave the recent-URL list and its backing store untouched. -/
def handleSubmit (input : String) (recent : List String)
    (outcome : ProcessUrlOutcome) : SubmitOutput :=
  let urlToProcess := jsTrim input
  if urlToProcess = "" then
    ⟨recent, none, none, .emptyInput⟩
  else
    let u := normalizeUrl urlToProcess
    match outcome with
    | .ok d =>
      let saved := saveToRecent recent u
      ⟨saved, some saved, some u, .success d⟩
    | .httpError f =>
      ⟨recent, none, some u, .backendError (jsOrString f "Failed to process URL")⟩
    | .transportError m =>
      ⟨recent, none, some u,
        .backendError (jsOrString m "An error occurred processing this URL. Please try again.")⟩

/-- The load-`recentUrls` effect of the URL input page:
`localStorage.getItem('recentUrls')` yields `saved` (`none` when the key
is absent); a JS-falsy (empty) stored string is skipped; otherwise
`JSON.parse` runs inside `try`, with `parsed` modelling its outcome
(`none` when it throws — the `catch` only logs, leaving the initial `[]`
state), and a successful parse is truncated with `.slice(0, 5)`. -/
def loadRecentUrls (saved : Option String) (parsed : Option (List String)) :
    List String :=
  match saved with
  | none => []
  | some s =>
    if s = "" then []
    else
      match parsed with
      | some urls => urls.take 5
      | none => []

/-! ## Theorems -/

/-- C1: an accepted `sendUserMessage(text)` turn (non-blank trimmed input,
not pending) grows the log by exactly two entries — the `user` message with
the submitted text, then the reply: on a 2xx `{message: m}` outcome a
`model` (assistant) message with content `m`, otherwise the fixed system
error message — and the loading flag is `false` after the turn. -/
theorem sendUserMessage_accepted_turn (st : ChatState) (input : String)
    (resp : FetchOutcome) (hin : jsTrim input ≠ "") (hp : st.isLoading = false) :
    (handleSendMessage st input resp).1.messages
      = st.messages ++ [⟨"user", input⟩, replyMessage sendErrorMsg resp]
    ∧ (handleSendMessage st input resp).1.messages.length = st.messages.length + 2
    ∧ (handleSendMessage st input resp).1.isLoading = false
    ∧ (∀ m, resp = FetchOutcome.ok m →
        (handleSendMessage st input resp).1.messages
          = st.messages ++ [⟨"user", input⟩, ⟨"model", m⟩])
    ∧ (resp = FetchOutcome.fail →
        (handleSendMessage st input resp).1.messages
          = st.messages ++ [⟨"user", input⟩, sendErrorMsg]) := by
  have hcond : ¬(jsTrim input = "" ∨ st.isLoading = true) := by
    simp [hin, hp]
  unfold handleSendMessage
  rw [if_neg hcond]
  refine ⟨by simp [resolveReply], by simp [resolveReply], rfl, ?_, ?_⟩
  · intro m hm
    subst hm
    simp [resolveReply, replyMessage]
  · intro hm
    subst hm
    simp [resolveReply, replyMessage]

/-- Witness for C1: a concrete accepted turn from the empty log with a
successful backend reply. -/
theorem sendUserMessage_accepted_turn_witness :
    (handleSendMessage ⟨[], false⟩ "hello" (FetchOutcome.ok "hi")).1.messages
      = [⟨"user", "hello"⟩, ⟨"model", "hi"⟩] := by
  have h := sendUserMessage_accepted_turn ⟨[], false⟩ "hello" (FetchOutcome.ok "hi")
    (by decide) rfl
  simpa using h.2.2.2.1 "hi" rfl

/-- C2: while a request is pending (`isLoading = true`) every
`sendUserMessage` attempt is rejected: any sequence of attempts leaves the
state unchanged and dispatches no request at all. -/
theorem sendUserMessage_noop_while_pending (st : ChatState)
    (attempts : List (String × FetchOutcome)) (hp : st.isLoading = true) :
    runSendSequence st attempts = (st, []) := by
  induction attempts generalizing st with
  | nil => rfl
  | cons a rest ih =>
    obtain ⟨i, r⟩ := a
    have h1 : handleSendMessage st i r = (st, none) := by
      unfold handleSendMessage
      rw [if_pos (Or.inr hp)]
    simp [runSendSequence, h1, ih st hp]

/-- Witness for C2: two concrete attempts against a pending state are both
no-ops. -/
theorem sendUserMessage_noop_while_pending_witness :
    runSendSequence ⟨[⟨"system", "s"⟩], true⟩
        [("a", FetchOutcome.fail), ("b", FetchOutcome.ok "y")]
      = (⟨[⟨"system", "s"⟩], true⟩, []) :=
  sendUserMessage_noop_while_pending ⟨[⟨"system", "s"⟩], true⟩
    [("a", FetchOutcome.fail), ("b", FetchOutcome.ok "y")] rfl

/-- C5: `saveToRecent` front-inserts the URL (it becomes the head), caps
the list at 5 entries, never leaves a duplicate of the inserted URL behind
the head, and the spec's concrete run `[a, b, a, c, d, e, f]` from the
empty cache ends in exactly `[f, e, d, c, a]`. -/
theorem saveToRecent_mru (recent : List String) (u : String) :
    (saveToRecent recent u).head? = some u
    ∧ (saveToRecent recent u).length ≤ 5
    ∧ u ∉ (saveToRecent recent u).tail
    ∧ List.foldl saveToRecent []
        ["a", "b", "a", "c", "d", "e", "f"] = ["f", "e", "d", "c", "a"] := by
  refine ⟨?_, ?_, ?_, by decide⟩
  · simp [saveToRecent]
  · exact List.length_take_le 5 _
  · unfold saveToRecent
    rw [List.take_succ_cons]
    intro hmem
    have h2 := List.take_subset 4 _ hmem
    simp at h2

/-- Witness for C5 at a concrete cache. -/
theorem saveToRecent_mru_witness :
    (saveToRecent ["a", "b"] "b").head? = some "b" :=
  (saveToRecent_mru ["a", "b"] "b").1

/-- C8: after initialization the log is append-only — every conversation
controller operation (a `sendUserMessage` turn or the automatic analysis
turn, with either backend outcome) leaves the previous log as a prefix of
the new one; nothing is mutated or removed, failures only append. -/
theorem chat_log_append_only (st : ChatState) (op : ChatOp) :
    st.messages <+: (chatStep st op).1.messages := by
  cases op with
  | send input resp =>
    by_cases hc : jsTrim input = "" ∨ st.isLoading = true
    · simp [chatStep, handleSendMessage, hc]
    · refine ⟨[⟨"user", input⟩, replyMessage sendErrorMsg resp], ?_⟩
      simp [chatStep, handleSendMessage, hc, resolveReply]
  | autoAnalyze resp =>
    by_cases hc : st.isLoading = true
    · simp [chatStep, handleAutoAnalyze, hc]
    · refine ⟨[replyMessage autoErrorMsg resp], ?_⟩
      simp [chatStep, handleAutoAnalyze, hc, resolveReply]

/-- C3: initialization with a present `urlData` yields a log of exactly the
system announcement (subject = `analysis.title` when present and non-empty,
else the `url`) followed by exactly one reply from the automatic summary
turn (`model` on success, the system error message on failure); the fixed
synthetic prompt is the entire dispatched request but never appears in the
visible log. -/
theorem initialize_log_shape (d : UrlData) (resp : FetchOutcome) :
    (initializeChat d resp).2 = some autoAnalyzeRequest
    ∧ (initializeChat d resp).1.messages
        = [initAnnouncement d, replyMessage autoErrorMsg resp]
    ∧ (initializeChat d resp).1.isLoading = false
    ∧ (initAnnouncement d).role = "system"
    ∧ (∀ m, resp = FetchOutcome.ok m →
        replyMessage autoErrorMsg resp = ⟨"model", m⟩)
    ∧ (resp = FetchOutcome.fail → replyMessage autoErrorMsg resp = autoErrorMsg)
    ∧ autoAnalyzePrompt ∉ (initializeChat d resp).1.messages
    ∧ (∀ a t, d.analysis = some a → a.title = some t → t ≠ "" → initSubject d = t)
    ∧ (∀ u, d.analysis.bind Analysis.title = none → d.url = some u → u ≠ "" →
        initSubject d = u) := by
  refine ⟨rfl, ?_, rfl, rfl, ?_, ?_, ?_, ?_, ?_⟩
  · simp [initializeChat, handleAutoAnalyze, resolveReply]
  · intro m hm
    subst hm
    rfl
  · intro hm
    subst hm
    rfl
  · have hmsgs : (initializeChat d resp).1.messages
        = [initAnnouncement d, replyMessage autoErrorMsg resp] := by
      simp [initializeChat, handleAutoAnalyze, resolveReply]
    rw [hmsgs]
    intro hmem
    rcases List.mem_pair.mp hmem with h | h
    · exact absurd (congrArg Message.role h) (by simp [autoAnalyzePrompt, initAnnouncement])
    · cases resp with
      | ok m => exact absurd (congrArg Message.role h) (by simp [autoAnalyzePrompt, replyMessage])
      | fail =>
        exact absurd (congrArg Message.role h)
          (by simp [autoAnalyzePrompt, replyMessage, autoErrorMsg])
  · intro a t ha ht hne
    simp [initSubject, ha, ht, jsOrString, hne]
  · intro u ha hu hne
    simp [initSubject, ha, hu, jsOrString, hne]

/-- Witness for C3: concrete initialization with a titled analysis and a
successful summary reply. -/
theorem initialize_log_shape_witness :
    (initializeChat ⟨some ⟨some "My Site"⟩, some "https://x.com"⟩
        (FetchOutcome.ok "sum")).1.messages
      = [⟨"system", "Analyzing website: My Site"⟩, ⟨"model", "sum"⟩] := by
  have h := initialize_log_shape ⟨some ⟨some "My Site"⟩, some "https://x.com"⟩
    (FetchOutcome.ok "sum")
  rw [h.2.1, h.2.2.2.2.1 "sum" rfl]
  have hs : initSubject ⟨some ⟨some "My Site"⟩, some "https://x.com"⟩ = "My Site" :=
    h.2.2.2.2.2.2.2.1 ⟨some "My Site"⟩ "My Site" rfl rfl (by decide)
  simp [initAnnouncement, hs]

/-- C4 counterexample: the claim that no `system`-role message is ever
included in a dispatched chat request is false — after a successful
initialization, the first user turn's request body is the full log, whose
head is the `system` announcement. -/
theorem system_sent_to_backend_counterexample :
    (handleSendMessage
        (initializeChat ⟨some ⟨some "My Site"⟩, some "https://x.com"⟩
          (FetchOutcome.ok "sum")).1
        "hello" (FetchOutcome.ok "hi")).2
      = some [⟨"system", "Analyzing website: My Site"⟩, ⟨"model", "sum"⟩,
              ⟨"user", "hello"⟩]
    ∧ (((handleSendMessage
          (initializeChat ⟨some ⟨some "My Site"⟩, some "https://x.com"⟩
            (FetchOutcome.ok "sum")).1
          "hello" (FetchOutcome.ok "hi")).2.getD []).any
        (fun m => m.role == "system")) = true := by
  constructor <;> decide

/-- Every role string the chat page ever constructs: `"user"`, `"model"`
(the assistant/AI reply role) or `"system"`. -/
def goodRole (m : Message) : Prop :=
  m.role = "user" ∨ m.role = "model" ∨ m.role = "system"

/-- C4 (amended): every message the chat page puts in the log has role
`user`, `model` (this code's spelling of the assistant role) or `system` —
established at initialization and preserved by every operation — and a
dispatched chat request consists of such messages only; but the request
carries the prior log wholesale, so any `system` entry of the request was
already in the log (only the freshly added request entries are non-system),
rather than system entries being excluded. -/
theorem chat_roles_and_requests (st : ChatState) (op : ChatOp)
    (hgood : ∀ m ∈ st.messages, goodRole m) :
    (∀ m ∈ (chatStep st op).1.messages, goodRole m)
    ∧ (∀ req, (chatStep st op).2 = some req →
        ∀ m ∈ req, goodRole m ∧ (m.role = "system" → m ∈ st.messages))
    ∧ (∀ d resp, ∀ m ∈ (initializeChat d resp).1.messages, goodRole m) := by
  refine ⟨?_, ?_, ?_⟩
  · intro m hm
    cases op with
    | send input resp =>
      by_cases hc : jsTrim input = "" ∨ st.isLoading = true
      · exact hgood m (by simpa [chatStep, handleSendMessage, hc] using hm)
      · have hmsg : (chatStep st (ChatOp.send input resp)).1.messages
            = st.messages ++ [⟨"user", input⟩, replyMessage sendErrorMsg resp] := by
          simp [chatStep, handleSendMessage, hc, resolveReply]
        rw [hmsg] at hm
        rcases List.mem_append.mp hm with h | h
        · exact hgood m h
        · rcases List.mem_pair.mp h with h | h
          · subst h; exact Or.inl rfl
          · subst h
            cases resp with
            | ok r => exact Or.inr (Or.inl rfl)
            | fail => exact Or.inr (Or.inr rfl)
    | autoAnalyze resp =>
      by_cases hc : st.isLoading = true
      · exact hgood m (by simpa [chatStep, handleAutoAnalyze, hc] using hm)
      · have hmsg : (chatStep st (ChatOp.autoAnalyze resp)).1.messages
            = st.messages ++ [replyMessage autoErrorMsg resp] := by
          simp [chatStep, handleAutoAnalyze, hc, resolveReply]
        rw [hmsg] at hm
        rcases List.mem_append.mp hm with h | h
        · exact hgood m h
        · rw [List.mem_singleton] at h
          subst h
          cases resp with
          | ok r => exact Or.inr (Or.inl rfl)
          | fail => exact Or.inr (Or.inr rfl)
  · intro req hreq m hm
    cases op with
    | send input resp =>
      by_cases hc : jsTrim input = "" ∨ st.isLoading = true
      · simp [chatStep, handleSendMessage, hc] at hreq
      · have h2 : (chatStep st (ChatOp.send input resp)).2
            = some (st.messages ++ [⟨"user", input⟩]) := by
          simp [chatStep, handleSendMessage, hc]
        rw [h2] at hreq
        obtain rfl := (Option.some.inj hreq).symm
        rcases List.mem_append.mp hm with h | h
        · exact ⟨hgood m h, fun _ => h⟩
        · rw [List.mem_singleton] at h
          subst h
          exact ⟨Or.inl rfl,
            fun hx => absurd (show ("user" : String) = "system" from hx) (by decide)⟩
    | autoAnalyze resp =>
      by_cases hc : st.isLoading = true
      · simp [chatStep, handleAutoAnalyze, hc] at hreq
      · have h2 : (chatStep st (ChatOp.autoAnalyze resp)).2 = some autoAnalyzeRequest := by
          simp [chatStep, handleAutoAnalyze, hc]
        rw [h2] at hreq
        obtain rfl := (Option.some.inj hreq).symm
        simp only [autoAnalyzeRequest, List.mem_singleton] at hm
        subst hm
        exact ⟨Or.inl rfl, fun hx => absurd hx (by decide)⟩
  · intro d resp m hm
    have hmsg : (initializeChat d resp).1.messages
        = [initAnnouncement d, replyMessage autoErrorMsg resp] := by
      simp [initializeChat, handleAutoAnalyze, resolveReply]
    rw [hmsg] at hm
    rcases List.mem_pair.mp hm with h | h
    · subst h; exact Or.inr (Or.inr rfl)
    · subst h
      cases resp with
      | ok r => exact Or.inr (Or.inl rfl)
      | fail => exact Or.inr (Or.inr rfl)

/-- Witness for the amended C4: the reply appended by a concrete turn has
one of the three constructed roles. -/
theorem chat_roles_and_requests_witness :
    goodRole ⟨"model", "hi"⟩ := by
  have h := chat_roles_and_requests ⟨[], false⟩
    (ChatOp.send "hello" (FetchOutcome.ok "hi")) (by simp)
  exact h.1 ⟨"model", "hi"⟩ (by decide)

/-- C6: for every non-blank trimmed input, `handleSubmit` dispatches the
URL unchanged when it already carries an `http(s)://` scheme and with
`https://` prepended otherwise (`example.com` becomes
`https://example.com`); dispatch happens for every non-blank input, with no
further client-side syntax validation. -/
theorem submit_normalizes_url (input : String) (recent : List String)
    (outcome : ProcessUrlOutcome) (h : jsTrim input ≠ "") :
    (handleSubmit input recent outcome).dispatched
      = some (normalizeUrl (jsTrim input))
    ∧ (hasHttpScheme (jsTrim input) = true → normalizeUrl (jsTrim input) = jsTrim input)
    ∧ (hasHttpScheme (jsTrim input) = false →
        normalizeUrl (jsTrim input) = "https://" ++ jsTrim input)
    ∧ normalizeUrl "example.com" = "https://example.com" := by
  refine ⟨?_, ?_, ?_, by decide⟩
  · unfold handleSubmit
    rw [if_neg h]
    cases outcome <;> rfl
  · intro hs
    simp [normalizeUrl, hs]
  · intro hs
    simp [normalizeUrl, hs]

/-- Witness for C6: the spec's concrete example `submit("example.com")`. -/
theorem submit_normalizes_url_witness :
    (handleSubmit "example.com" [] (ProcessUrlOutcome.httpError none)).dispatched
      = some "https://example.com" := by
  have h := submit_normalizes_url "example.com" [] (ProcessUrlOutcome.httpError none)
    (by decide)
  rw [h.1]
  decide

/-- Helper: JavaScript `a || b` with a non-empty fallback is non-empty. -/
theorem jsOrString_ne_empty (a : Option String) (b : String) (hb : b ≠ "") :
    jsOrString a b ≠ "" := by
  unfold jsOrString
  cases a with
  | none => exact hb
  | some s =>
    show (if s = "" then b else s) ≠ ""
    by_cases hs : s = ""
    · rw [if_pos hs]
      exact hb
    · rw [if_neg hs]
      exact hs

/-- C7: failing submits never touch the recent-URL cache — on any
non-success result the in-memory list is returned unchanged and nothing is
written to storage; blank (or whitespace-only) input yields `emptyInput`
with no network call; and every backend failure carries a non-empty
human-readable message. -/
theorem submit_failure_preserves_cache (input : String) (recent : List String)
    (outcome : ProcessUrlOutcome) :
    ((handleSubmit input recent outcome).result.isSuccess = false →
      (handleSubmit input recent outcome).recentUrls = recent
      ∧ (handleSubmit input recent outcome).stored = none)
    ∧ (jsTrim input = "" →
        (handleSubmit input recent outcome).dispatched = none
        ∧ (handleSubmit input recent outcome).result = SubmitResult.emptyInput)
    ∧ (∀ msg, (handleSubmit input recent outcome).result = SubmitResult.backendError msg →
        msg ≠ "") := by
  by_cases ht : jsTrim input = ""
  · refine ⟨fun _ => ?_, fun _ => ?_, ?_⟩
    · simp [handleSubmit, ht]
    · simp [handleSubmit, ht]
    · intro msg hmsg
      simp [handleSubmit, ht] at hmsg
  · refine ⟨?_, fun h => absurd h ht, ?_⟩
    · intro hf
      cases outcome with
      | ok d => simp [handleSubmit, ht, SubmitResult.isSuccess] at hf
      | httpError f => simp [handleSubmit, ht]
      | transportError m => simp [handleSubmit, ht]
    · intro msg hmsg
      cases outcome with
      | ok d => simp [handleSubmit, ht] at hmsg
      | httpError f =>
        simp [handleSubmit, ht] at hmsg
        rw [← hmsg]
        exact jsOrString_ne_empty f _ (by decide)
      | transportError m =>
        simp [handleSubmit, ht] at hmsg
        rw [← hmsg]
        exact jsOrString_ne_empty m _ (by decide)

/-- Witness for C7: a whitespace-only submit makes no network call, leaves
the cache and its backing store untouched, and reports `emptyInput`. -/
theorem submit_failure_preserves_cache_witness :
    (handleSubmit "   " ["x"] (ProcessUrlOutcome.httpError none)).dispatched = none
    ∧ (handleSubmit "   " ["x"] (ProcessUrlOutcome.httpError none)).result
        = SubmitResult.emptyInput
    ∧ (handleSubmit "   " ["x"] (ProcessUrlOutcome.httpError none)).recentUrls = ["x"] := by
  have h := submit_failure_preserves_cache "   " ["x"] (ProcessUrlOutcome.httpError none)
  refine ⟨(h.2.1 (by decide)).1, (h.2.1 (by decide)).2, (h.1 ?_).1⟩
  rw [(h.2.1 (by decide)).2]
  rfl

/-- C9: the chat page's init effect without a navigation payload redirects
to the URL input page and does nothing else — no message is installed, no
request is dispatched (encoded by the `redirect` action carrying no state
and no request) — and a redirect happens only in that case. -/
theorem missing_analysis_redirects (resp : FetchOutcome) :
    chatInitEffect none resp = InitEffect.redirect
    ∧ ∀ d, chatInitEffect (some d) resp ≠ InitEffect.redirect := by
  refine ⟨rfl, fun d => ?_⟩
  simp [chatInitEffect]

/-- Witness for C9 at concrete inputs. -/
theorem missing_analysis_redirects_witness :
    chatInitEffect none FetchOutcome.fail = InitEffect.redirect
    ∧ chatInitEffect (some ⟨none, none⟩) FetchOutcome.fail ≠ InitEffect.redirect :=
  ⟨(missing_analysis_redirects FetchOutcome.fail).1,
   (missing_analysis_redirects FetchOutcome.fail).2 ⟨none, none⟩⟩

/-- C10: loading the persisted `recentUrls` entry never faults — an absent
key, a JS-falsy stored string, or a `JSON.parse` failure (its exception is
caught) all leave the in-memory cache empty, and a successful parse is
truncated to at most 5 entries. -/
theorem loadRecentUrls_robust (s : String) (urls : List String) :
    loadRecentUrls none none = []
    ∧ loadRecentUrls (some s) none = []
    ∧ (s ≠ "" → loadRecentUrls (some s) (some urls) = urls.take 5)
    ∧ (loadRecentUrls (some s) (some urls)).length ≤ 5 := by
  refine ⟨rfl, ?_, ?_, ?_⟩
  · by_cases hs : s = "" <;> simp [loadRecentUrls, hs]
  · intro hs
    simp [loadRecentUrls, hs]
  · by_cases hs : s = ""
    · simp [loadRecentUrls, hs]
    · simp [loadRecentUrls, hs]

/-- Witness for C10: a corrupt stored string leaves the cache empty; an
over-long parsed list is cut to 5. -/
theorem loadRecentUrls_robust_witness :
    loadRecentUrls (some "notjson") none = []
    ∧ loadRecentUrls (some "notjson") (some ["a", "b", "c", "d", "e", "f"])
        = ["a", "b", "c", "d", "e"] := by
  have h := loadRecentUrls_robust "notjson" ["a", "b", "c", "d", "e", "f"]
  refine ⟨h.2.1, ?_⟩
  rw [h.2.2.1 (by decide)]
  decide

end UrlAnalyzer
